import Mathlib

/-!
Verification of the tetris-io relay server.

The repository ships two concatenated server variants inside `src/server.js`
(a room-based server, called v1 below, and an account/duel server, called v2
below) plus an earlier variant in `src/unnamed/part_000`.  The definitions
below are shallow embeddings of the socket event handlers and helper
functions of those servers; client-side engine pieces that are absent from
the repository (the piece randomizer) are modelled from the specification
and marked as such.
-/

/-- Rooms move through these states (v1 `room.state`, v2 `ffaLobby.state`). -/
inductive RState where
  | waiting
  | countdown
  | playing
  | finished
deriving DecidableEq, Repr

/-- Room mode in the v1 server: a 1v1 duel or a free-for-all. -/
inductive Mode where
  | duel
  | ffa
deriving DecidableEq, Repr

/-- A board grid as relayed by the server.  The server never inspects a
grid, it only forwards the JSON payload, so rows of naturals suffice. -/
def Grid : Type := List (List Nat)

instance : DecidableEq Grid := by
  unfold Grid
  infer_instance

instance : Repr Grid := by
  unfold Grid
  infer_instance

/-- A room member in the v1 server: `{ id: socket.id, username, alive }`. -/
structure Player where
  id : String
  username : String
  alive : Bool
deriving DecidableEq, Repr

/-- A v1 room: `{ id, name, pass, mode, players, state, scores }`.  The
name and password play no role in the claims and are omitted; scores are
the `scores` object keyed by username. -/
structure Room where
  id : String
  mode : Mode
  players : List Player
  state : RState
  scores : List (String × Int)
deriving DecidableEq, Repr

/-- Socket emissions the handlers produce.  `dest` is the argument of
`io.to(...)` or `socket.to(...)` (a room id or a socket id). -/
inductive Emit where
  | receive_garbage (dest : String) (amount : Int)
  | enemy_board_update (dest : String) (senderId : String) (grid : Grid)
  | elimination (dest : String) (username : String)
  | round_over (dest : String) (winner : String)
  | lobby_update (dest : String)
  | receive_chat (user : String) (text : String)
  | duel_end (winnerName : String)
  | duel_round_result (round : Nat) (newSeed : Nat)
deriving DecidableEq, Repr

/-- v1 `getRoom(socketId)`: the first room whose player list contains the
socket id. -/
def getRoom (rooms : List Room) (socketId : String) : Option Room :=
  rooms.find? (fun r => r.players.any (fun p => p.id == socketId))

/-- v1 `update_board` handler (src/server.js lines 71-74): if the sender is
in a room, relay the client-supplied grid verbatim to the rest of the room
as `enemy_board_update { id, grid }`. -/
def update_board (room : Option Room) (senderId : String) (grid : Grid) :
    List Emit :=
  match room with
  | some r => [Emit.enemy_board_update r.id senderId grid]
  | none => []

/-- v1 `send_garbage` handler (src/server.js lines 55-69).  `amount` is the
client-supplied `data.amount`; JS `Math.floor(a / n)` on integers is floor
division, `Int.fdiv`. -/
def send_garbage (room : Option Room) (senderId : String) (amount : Int) :
    List Emit :=
  match room with
  | none => []
  | some r =>
    if r.state ≠ RState.playing then []
    else
      let targets := r.players.filter (fun p => p.alive && p.id != senderId)
      if targets.length > 0 then
        let dmg :=
          if r.mode = Mode.ffa then
            let split := Int.fdiv amount (targets.length : Int)
            if amount ≥ 4 ∧ split = 0 then 1 else split
          else amount
        if dmg > 0 then targets.map (fun t => Emit.receive_garbage t.id dmg)
        else []
      else []

/-- `scores[winner]++` on an association list keyed by username.  The key
is always present because `joinRoom` initializes it for every member. -/
def bumpScore (scores : List (String × Int)) (name : String) :
    List (String × Int) :=
  scores.map (fun kv => if kv.1 == name then (kv.1, kv.2 + 1) else kv)

/-- v1 `checkWin(room)` (src/server.js lines 153-180): with at most one
survivor the room is finished; a unique survivor scores a point and is
announced, no survivor announces "No One".  The `round_over` and
`broadcastLobby` emissions are modelled; the 3-second restart timer is an
asynchronous continuation outside this synchronous step. -/
def checkWin (room : Room) : Room × List Emit :=
  let survivors := room.players.filter (fun p => p.alive)
  if survivors.length ≤ 1 then
    match survivors with
    | s :: _ =>
      let room2 := { room with
        state := RState.finished
        scores := bumpScore room.scores s.username }
      (room2, [Emit.round_over room.id s.username, Emit.lobby_update room.id])
    | [] =>
      ({ room with state := RState.finished },
       [Emit.round_over room.id "No One", Emit.lobby_update room.id])
  else (room, [])

/-- The in-place mutation `p.alive = false` on the member matching the
socket id, seen as a function of the player array. -/
def killPlayer (l : List Player) (sid : String) : List Player :=
  l.map (fun q => if q.id == sid then { q with alive := false } else q)

/-- v1 `player_died` handler (src/server.js lines 76-86): ignored unless
the room is playing and the sender is a still-alive member; otherwise the
player is marked dead, an elimination is announced and the win condition
is checked. -/
def player_died (room : Room) (senderId : String) : Room × List Emit :=
  if room.state ≠ RState.playing then (room, [])
  else
    match room.players.find? (fun x => x.id == senderId) with
    | none => (room, [])
    | some p =>
      if p.alive then
        let room1 := { room with players := killPlayer room.players senderId }
        let cw := checkWin room1
        (cw.1, Emit.elimination room.id p.username :: cw.2)
      else (room, [])

/-- The non-empty branch of the v1 `disconnect` handler: with the
departing player already filtered out of the room, announce an
elimination and run `checkWin` when the match was in play and the player
alive, else leave the shrunk room as is. -/
def disconnectStep (room : Room) (socketId : String) (p : Player) :
    Room × List Emit :=
  let room1 := { room with
    players := room.players.filter (fun x => x.id != socketId) }
  if room1.state = RState.playing ∧ p.alive then
    let cw := checkWin room1
    (cw.1, Emit.elimination room.id p.username :: cw.2)
  else (room1, [])

/-- v1 `disconnect` handler (src/server.js lines 88-104): drop the player
from its room; delete the room from the registry when it empties, else
run `disconnectStep` and refresh the lobby display. -/
def disconnect (rooms : List Room) (socketId : String) :
    List Room × List Emit :=
  match getRoom rooms socketId with
  | none => (rooms, [])
  | some room =>
    match room.players.find? (fun x => x.id == socketId) with
    | none => (rooms, [])
    | some p =>
      let room1 := { room with
        players := room.players.filter (fun x => x.id != socketId) }
      if room1.players.isEmpty then
        (rooms.filter (fun r => r.id != room.id), [])
      else
        let step := disconnectStep room socketId p
        (rooms.map (fun r => if r.id == room.id then step.1 else r),
         step.2 ++ [Emit.lobby_update room.id])

/-- A member of the v2 `ffaLobby.players` array.  The per-player
`damageLog`, used only for killer attribution, is not part of any claim
and is not modelled. -/
structure FfaPlayer where
  id : String
  username : String
  alive : Bool
deriving DecidableEq, Repr

/-- The v2 `ffaLobby` global, restricted to the fields the handlers read. -/
structure FfaLobby where
  players : List FfaPlayer
  state : RState
deriving DecidableEq, Repr

/-- A v2 duel record: `{ p1Id, p2Id, p1Name, p2Name, scores, round, seed,
active }`; `scores[p1Id]` and `scores[p2Id]` are kept as `s1` and `s2`. -/
structure Duel where
  p1Id : String
  p2Id : String
  p1Name : String
  p2Name : String
  s1 : Nat
  s2 : Nat
  round : Nat
  seed : Nat
  active : Bool
deriving DecidableEq, Repr

/-- FFA block of the v2 `send_garbage` handler (src/server.js lines
438-453): requires the lobby playing and the sender alive, splits the
amount evenly among alive non-sender targets with the pity raise to 1,
and emits only a positive per-target amount. -/
def ffaGarbage (lobby : FfaLobby) (senderId : String) (amount : Int) :
    List Emit :=
  if lobby.state = RState.playing then
    match lobby.players.find? (fun p => p.id == senderId) with
    | none => []
    | some sender =>
      if sender.alive then
        let targets := lobby.players.filter
          (fun p => p.alive && p.id != senderId)
        if targets.length > 0 then
          let split0 := Int.fdiv amount (targets.length : Int)
          let split := if amount ≥ 4 ∧ split0 = 0 then 1 else split0
          if split > 0 then
            targets.map (fun t => Emit.receive_garbage t.id split)
          else []
        else []
      else []
  else []

/-- Duel block of the v2 `send_garbage` handler (src/server.js lines
456-460): when the sender is in an active duel, forward the raw
client-supplied amount to the opponent, with no state, sign or zero
check. -/
def duelGarbage (duel : Option Duel) (senderId : String) (amount : Int) :
    List Emit :=
  match duel with
  | some d =>
    if d.active then
      let oppId := if d.p1Id == senderId then d.p2Id else d.p1Id
      [Emit.receive_garbage oppId amount]
    else []
  | none => []

/-- v2 `send_garbage` handler (src/server.js lines 436-461): the FFA block
followed by the duel block; `duel` is `findDuelByPlayer(socket.id)`. -/
def send_garbage_v2 (lobby : FfaLobby) (duel : Option Duel)
    (senderId : String) (amount : Int) : List Emit :=
  ffaGarbage lobby senderId amount ++ duelGarbage duel senderId amount

/-- v2 `update_board` handler (src/server.js lines 425-434): relay the
client-supplied grid verbatim to the FFA lobby and, when the sender is in
an active duel, to the duel opponent. -/
def update_board_v2 (duel : Option Duel) (senderId : String) (grid : Grid) :
    List Emit :=
  Emit.enemy_board_update "lobby_ffa" senderId grid ::
  (match duel with
   | some d =>
     if d.active then
       let oppId := if d.p1Id == senderId then d.p2Id else d.p1Id
       [Emit.enemy_board_update oppId senderId grid]
     else []
   | none => [])

/-- v2 `duel_report_loss` handler (src/server.js lines 672-787), duel
state and emissions only: the reporter loses the round, the other player
scores, the round counter advances, and the duel ends exactly when the
first-to-6-win-by-2 test on the updated scores passes; otherwise the
supplied fresh seed is stored for the next round.  The account history
and leaderboard side effects touch no duel state and are not modelled;
`newSeed` stands for the `Math.random()` draw. -/
def duel_report_loss (d : Duel) (reporterId : String) (newSeed : Nat) :
    Duel × List Emit :=
  if d.active = false then (d, [])
  else
    let winnerIsP2 := d.p1Id == reporterId
    let s1 := if winnerIsP2 then d.s1 else d.s1 + 1
    let s2 := if winnerIsP2 then d.s2 + 1 else d.s2
    let d1 := { d with s1 := s1, s2 := s2, round := d.round + 1 }
    let diff := if s2 ≤ s1 then s1 - s2 else s2 - s1
    if (6 ≤ s1 ∨ 6 ≤ s2) ∧ 2 ≤ diff then
      let winnerName := if s2 < s1 then d.p1Name else d.p2Name
      ({ d1 with active := false }, [Emit.duel_end winnerName])
    else
      ({ d1 with seed := newSeed },
       [Emit.duel_round_result d1.round newSeed])

/-- `send_garbage` handler of the early server variant
(src/unnamed/part_000 lines 77-92).  The client supplies `data.mode` as
a string; the duel branch broadcasts the raw `data.amount` to the
socket's duel room (`Array.from(socket.rooms)[1]`, passed here as
`duelRoom`) with no state, sign or zero check, while the FFA branch
splits the amount among alive non-sender targets with the pity raise,
guarded by the playing state. -/
def send_garbage_early (ffaState : RState) (ffaPlayers : List FfaPlayer)
    (mode : String) (senderId : String) (duelRoom : String) (amount : Int) :
    List Emit :=
  if mode = "duel" then
    [Emit.receive_garbage duelRoom amount]
  else if mode = "ffa" ∧ ffaState = RState.playing then
    let targets := ffaPlayers.filter (fun p => p.alive && p.id != senderId)
    if targets.length > 0 then
      let split0 := Int.fdiv amount (targets.length : Int)
      let split := if amount ≥ 4 ∧ split0 = 0 then 1 else split0
      if split > 0 then
        targets.map (fun t => Emit.receive_garbage t.id split)
      else []
    else []
  else []

/-- A JSON-ish value as delivered by socket.io: event payloads are
arbitrary client data, so a handler may receive any of these shapes. -/
inductive JsVal where
  | vstr (s : String)
  | vnum (n : Int)
  | vbool (b : Bool)
  | vnull
  | vundef
  | vobj (fields : List (String × JsVal))

/-- The sanitisation chain of `send_chat`:
`msg.replace(/</g,"&lt;").replace(/>/g,"&gt;").substring(0,50)`. -/
def jsClean (s : String) : String :=
  (((s.replace "<" "&lt;").replace ">" "&gt;").take 50)

/-- v2 `send_chat` handler (src/server.js lines 256-265).  JS calls
`msg.replace(...)` on the raw payload: a string is sanitised and relayed,
any non-string payload has no `replace` method and the handler throws a
TypeError, modelled as `Except.error`. -/
def send_chat (msg : JsVal) (username : Option String) :
    Except String (List Emit) :=
  match msg with
  | JsVal.vstr s =>
    Except.ok [Emit.receive_chat (username.getD "Anon") (jsClean s)]
  | _ => Except.error "TypeError: msg.replace is not a function"

/-- v2 `login_attempt` handler entry (src/server.js lines 268-270), up to
the first field accesses `data.username.trim()` and
`data.password.trim()`: both throw a TypeError unless the payload is an
object whose `username` and `password` fields are strings.  Only the
crash behaviour matters for the claims, so the success value is the
trimmed pair. -/
def login_attempt (data : JsVal) : Except String (String × String) :=
  match data with
  | JsVal.vobj fields =>
    match fields.lookup "username", fields.lookup "password" with
    | some (JsVal.vstr u), some (JsVal.vstr p) =>
      Except.ok (u.trim.take 12, p.trim)
    | _, _ => Except.error "TypeError: trim is not a function"
  | _ => Except.error "TypeError: cannot read properties"

/-- Modelled from the spec: the repository contains no server-side piece
randomizer (it lives in the client, outside src/); §4.1 prescribes a
7-bag with an in-place Fisher-Yates shuffle.  `listSwap l i j` swaps the
entries at positions `i` and `j`, leaving the list unchanged when an
index is out of range. -/
def listSwap (l : List Nat) (i j : Nat) : List Nat :=
  if h : i < l.length ∧ j < l.length then
    (l.set i (l.get ⟨j, h.2⟩)).set j (l.get ⟨i, h.1⟩)
  else l

/-- Modelled from the spec (§4.1): Fisher-Yates over indices `i` from
`n` down to 1, swapping index `i` with a chosen index in `[0, i]`; the
oracle `choice` stands for the uniform random draws, reduced modulo
`i + 1`. -/
def fisherYates (l : List Nat) : Nat → (Nat → Nat) → List Nat
  | 0, _ => l
  | i + 1, choice =>
    fisherYates (listSwap l (i + 1) (choice (i + 1) % (i + 2))) i choice

/-- Modelled from the spec (§4.1): refilling the empty bag with all 7
shape identities and shuffling. -/
def refillBag (choice : Nat → Nat) : List Nat :=
  fisherYates [0, 1, 2, 3, 4, 5, 6] 6 choice

/-- Modelled from the spec (§4.1): `pull()` refills the bag when it is
empty, then removes and returns one element. -/
def pull (bag : List Nat) (choice : Nat → Nat) : Nat × List Nat :=
  match bag with
  | [] =>
    match refillBag choice with
    | [] => (0, [])
    | x :: rest => (x, rest)
  | x :: rest => (x, rest)

/-- `n` consecutive `pull()` calls, collecting the returned identities. -/
def pulls : Nat → List Nat → (Nat → Nat) → List Nat
  | 0, _, _ => []
  | n + 1, bag, choice =>
    let step := pull bag choice
    step.1 :: pulls n step.2 choice

/-- Number of `elimination` emissions in a handler output. -/
def countElim (l : List Emit) : Nat :=
  l.countP (fun e => match e with
    | Emit.elimination _ _ => true
    | _ => false)

/-- Concrete fixture: a free-for-all room in play with three live members. -/
def roomFfa3 : Room :=
  { id := "r1", mode := Mode.ffa,
    players := [⟨"p1", "Alice", true⟩, ⟨"p2", "Bob", true⟩,
                ⟨"p3", "Eve", true⟩],
    state := RState.playing,
    scores := [("Alice", 0), ("Bob", 0), ("Eve", 0)] }

/-- Concrete fixture: a duel room in play with both members alive. -/
def roomDuel2 : Room :=
  { id := "r2", mode := Mode.duel,
    players := [⟨"p1", "Alice", true⟩, ⟨"p2", "Bob", true⟩],
    state := RState.playing,
    scores := [("Alice", 0), ("Bob", 0)] }

/-- Concrete fixture: an idle v2 FFA lobby (nobody queued, not playing). -/
def lobbyIdle : FfaLobby := { players := [], state := RState.waiting }

/-- Concrete fixture: a v2 FFA lobby in play with three live members. -/
def lobbyPlay3 : FfaLobby :=
  { players := [⟨"p1", "Alice", true⟩, ⟨"p2", "Bob", true⟩,
                ⟨"p3", "Eve", true⟩],
    state := RState.playing }

/-- Concrete fixture: an active duel between p1 and p2 at 0-0. -/
def duelPQ : Duel :=
  { p1Id := "p1", p2Id := "p2", p1Name := "A", p2Name := "B",
    s1 := 0, s2 := 0, round := 1, seed := 42, active := true }

/-- Concrete fixture: a finished (inactive) duel between p1 and p2. -/
def duelOff : Duel :=
  { p1Id := "p1", p2Id := "p2", p1Name := "A", p2Name := "B",
    s1 := 6, s2 := 0, round := 7, seed := 42, active := false }

/-- Concrete fixture: an active duel at 5-0, one round from match point. -/
def duelFive : Duel :=
  { p1Id := "p1", p2Id := "p2", p1Name := "A", p2Name := "B",
    s1 := 5, s2 := 0, round := 6, seed := 42, active := true }

/-- Concrete fixture: a playing room where only Alice is still alive. -/
def roomWin1 : Room :=
  { id := "r1", mode := Mode.ffa,
    players := [⟨"p1", "Alice", true⟩, ⟨"p2", "Bob", false⟩],
    state := RState.playing, scores := [("Alice", 0), ("Bob", 0)] }

/-- Concrete fixture: a playing room where nobody is left alive. -/
def roomWin0 : Room :=
  { id := "r1", mode := Mode.ffa,
    players := [⟨"p1", "Alice", false⟩, ⟨"p2", "Bob", false⟩],
    state := RState.playing, scores := [("Alice", 0), ("Bob", 0)] }

/-- Concrete fixture: a room still waiting for its match to start. -/
def roomWaiting : Room :=
  { id := "r1", mode := Mode.ffa,
    players := [⟨"p1", "Alice", true⟩, ⟨"p2", "Bob", true⟩],
    state := RState.waiting, scores := [("Alice", 0), ("Bob", 0)] }

/-- Concrete fixture: a playing room with a single member. -/
def roomSolo : Room :=
  { id := "r9", mode := Mode.ffa, players := [⟨"p1", "Alice", true⟩],
    state := RState.playing, scores := [("Alice", 0)] }

/-! ## Claim C1 -/

/-- Claim C1, counterexample: two `update_board` runs that differ only in
the client-supplied grid payload produce different broadcasts, so the
relayed content is not derived from server-owned state. -/
theorem update_board_not_client_independent :
    update_board (some roomFfa3) "p1" ([[0]] : List (List Nat)) ≠
      update_board (some roomFfa3) "p1" ([[1]] : List (List Nat)) := by
  decide

/-- Claim C1, amended: for every `update_board` message the server relays
the client-supplied grid verbatim, broadcasting exactly
`enemy_board_update (id, grid)` with the unvalidated payload: the v1
output is exactly the room broadcast, and the v2 output is exactly the
FFA-lobby broadcast followed by the duel-opponent broadcast when the
sender is in an active duel, and nothing else. -/
theorem update_board_relays_client_grid :
    (∀ (r : Room) (sid : String) (g : Grid),
      update_board (some r) sid g = [Emit.enemy_board_update r.id sid g])
    ∧ (∀ (sid : String) (g : Grid),
      update_board_v2 none sid g = [Emit.enemy_board_update "lobby_ffa" sid g])
    ∧ (∀ (d : Duel) (sid : String) (g : Grid), d.active = true →
      update_board_v2 (some d) sid g =
        [Emit.enemy_board_update "lobby_ffa" sid g,
         Emit.enemy_board_update (if d.p1Id == sid then d.p2Id else d.p1Id)
           sid g])
    ∧ (∀ (d : Duel) (sid : String) (g : Grid), d.active = false →
      update_board_v2 (some d) sid g =
        [Emit.enemy_board_update "lobby_ffa" sid g]) := by
  refine ⟨?_, ?_, ?_, ?_⟩
  · intro r sid g
    rfl
  · intro sid g
    rfl
  · intro d sid g ha
    simp [update_board_v2, ha]
  · intro d sid g ha
    simp [update_board_v2, ha]

/-- Claim C1, witness: a concrete grid relayed verbatim to the lobby and
to the duel opponent of an active duel, and only to the lobby once the
duel is over. -/
theorem update_board_relays_client_grid_witness :
    update_board_v2 (some duelPQ) "p1" ([[1]] : List (List Nat)) =
      [Emit.enemy_board_update "lobby_ffa" "p1" ([[1]] : List (List Nat)),
       Emit.enemy_board_update "p2" "p1" ([[1]] : List (List Nat))]
    ∧ update_board_v2 (some duelOff) "p1" ([[1]] : List (List Nat)) =
        [Emit.enemy_board_update "lobby_ffa" "p1" ([[1]] : List (List Nat))] := by
  constructor
  · exact (update_board_relays_client_grid.2.2.1 duelPQ "p1" [[1]] rfl).trans
      (by decide)
  · exact update_board_relays_client_grid.2.2.2 duelOff "p1" [[1]] rfl

/-! ## Claim C4 -/

/-- Claim C4 (code bug): a malformed payload does not leave the handler
terminating normally: `send_chat` with a non-string message and
`login_attempt` with a null or field-less payload throw a TypeError
instead of being silently ignored. -/
theorem malformed_payload_throws :
    send_chat (JsVal.vnum 42) none =
      Except.error "TypeError: msg.replace is not a function"
    ∧ send_chat JsVal.vnull none =
      Except.error "TypeError: msg.replace is not a function"
    ∧ login_attempt JsVal.vnull =
      Except.error "TypeError: cannot read properties"
    ∧ login_attempt (JsVal.vobj []) =
      Except.error "TypeError: trim is not a function" := by
  exact ⟨rfl, rfl, rfl, rfl⟩

/-! ## Claim C2 -/

/-- Claim C2, counterexample: both the v2 duel relay and the duel branch
of the early server emit a `receive_garbage` event whose per-target
amount is 0, which the claim rules out. -/
theorem send_garbage_v2_emits_zero :
    send_garbage_v2 lobbyIdle (some duelPQ) "p1" 0 =
      [Emit.receive_garbage "p2" 0]
    ∧ send_garbage_early RState.waiting [] "duel" "p1" "duel_a_b" 0 =
        [Emit.receive_garbage "duel_a_b" 0] := by
  exact ⟨by decide, by decide⟩

/-- Claim C2, amended: while a match is playing, the v1 duel branch sends
the single opponent the full reported amount when it is positive and
nothing otherwise, and the FFA branches of all three variants send each
alive non-sender target `floor(amount/n)`, raised to 1 when
`amount >= 4` and the floor is 0, emitting nothing when the per-target
amount is 0; the duel relays of the v2 server and of the early server,
however, forward the reported amount unconditionally, including 0. -/
theorem send_garbage_distribution :
    (∀ (r : Room) (sid : String) (amt : Int) (t : Player),
      r.state = RState.playing → r.mode = Mode.duel →
      r.players.filter (fun p => p.alive && p.id != sid) = [t] →
      send_garbage (some r) sid amt =
        if 0 < amt then [Emit.receive_garbage t.id amt] else [])
    ∧ (∀ (r : Room) (sid : String) (amt : Int),
      r.state = RState.playing → r.mode = Mode.ffa →
      0 < (r.players.filter (fun p => p.alive && p.id != sid)).length →
      send_garbage (some r) sid amt =
        (let targets := r.players.filter (fun p => p.alive && p.id != sid)
         let split0 := Int.fdiv amt (targets.length : Int)
         let dmg := if amt ≥ 4 ∧ split0 = 0 then 1 else split0
         if 0 < dmg then targets.map (fun t => Emit.receive_garbage t.id dmg)
         else []))
    ∧ (∀ (lobby : FfaLobby) (sid : String) (amt : Int) (sender : FfaPlayer),
      lobby.state = RState.playing →
      lobby.players.find? (fun p => p.id == sid) = some sender →
      sender.alive = true →
      0 < (lobby.players.filter (fun p => p.alive && p.id != sid)).length →
      ffaGarbage lobby sid amt =
        (let targets := lobby.players.filter (fun p => p.alive && p.id != sid)
         let split0 := Int.fdiv amt (targets.length : Int)
         let split := if amt ≥ 4 ∧ split0 = 0 then 1 else split0
         if 0 < split then
           targets.map (fun t => Emit.receive_garbage t.id split)
         else []))
    ∧ (∀ (d : Duel) (sid : String) (amt : Int),
      d.active = true →
      duelGarbage (some d) sid amt =
        [Emit.receive_garbage (if d.p1Id == sid then d.p2Id else d.p1Id) amt])
    ∧ (∀ (st : RState) (pl : List FfaPlayer) (sid room : String) (amt : Int),
      send_garbage_early st pl "duel" sid room amt =
        [Emit.receive_garbage room amt])
    ∧ (∀ (st : RState) (pl : List FfaPlayer) (sid room : String) (amt : Int),
      st = RState.playing →
      0 < (pl.filter (fun p => p.alive && p.id != sid)).length →
      send_garbage_early st pl "ffa" sid room amt =
        (let targets := pl.filter (fun p => p.alive && p.id != sid)
         let split0 := Int.fdiv amt (targets.length : Int)
         let split := if amt ≥ 4 ∧ split0 = 0 then 1 else split0
         if 0 < split then
           targets.map (fun t => Emit.receive_garbage t.id split)
         else [])) := by
  refine ⟨?_, ?_, ?_, ?_, ?_, ?_⟩
  · intro r sid amt t hs hm hf
    simp [send_garbage, hs, hm, hf]
  · intro r sid amt hs hm hl
    simp only [send_garbage, hs, hm]
    simp [hl]
  · intro lobby sid amt sender hs hf ha hl
    simp only [ffaGarbage, hs, hf, ha]
    simp [hl]
  · intro d sid amt ha
    simp [duelGarbage, ha]
  · intro st pl sid room amt
    simp [send_garbage_early]
  · intro st pl sid room amt hst hl
    subst hst
    simp only [send_garbage_early]
    rw [if_neg (by decide)]
    rw [if_pos ⟨trivial, trivial⟩]
    simp [hl]

/-- Claim C2, witness: concrete duel and FFA distributions produced by the
amended theorem, on all three server variants. -/
theorem send_garbage_distribution_witness :
    send_garbage (some roomDuel2) "p1" 3 = [Emit.receive_garbage "p2" 3]
    ∧ ffaGarbage lobbyPlay3 "p1" 5 =
        [Emit.receive_garbage "p2" 2, Emit.receive_garbage "p3" 2]
    ∧ duelGarbage (some duelPQ) "p1" 7 = [Emit.receive_garbage "p2" 7]
    ∧ send_garbage_early RState.waiting [] "duel" "p1" "duel_a_b" 7 =
        [Emit.receive_garbage "duel_a_b" 7]
    ∧ send_garbage_early RState.playing lobbyPlay3.players "ffa" "p1"
        "ffa_room" 5 =
        [Emit.receive_garbage "p2" 2, Emit.receive_garbage "p3" 2] := by
  refine ⟨?_, ?_, ?_, ?_, ?_⟩
  · exact (send_garbage_distribution.1 roomDuel2 "p1" 3 ⟨"p2", "Bob", true⟩
      rfl rfl (by decide)).trans (by decide)
  · exact (send_garbage_distribution.2.2.1 lobbyPlay3 "p1" 5
      ⟨"p1", "Alice", true⟩ rfl (by decide) rfl (by decide)).trans (by decide)
  · exact (send_garbage_distribution.2.2.2.1 duelPQ "p1" 7 rfl).trans
      (by decide)
  · exact send_garbage_distribution.2.2.2.2.1 RState.waiting [] "p1"
      "duel_a_b" 7
  · exact (send_garbage_distribution.2.2.2.2.2 RState.playing
      lobbyPlay3.players "p1" "ffa_room" 5 rfl (by decide)).trans (by decide)

/-! ## Claim C3 -/

/-- Claim C3, counterexample: a client-supplied negative amount reaches
the v2 duel relay unchecked, so a `receive_garbage` emission carries a
negative number of lines. -/
theorem receive_garbage_can_be_negative :
    send_garbage_v2 lobbyIdle (some duelPQ) "p1" (-3) =
      [Emit.receive_garbage "p2" (-3)]
    ∧ (-3 : Int) < 0 := by
  exact ⟨by decide, by decide⟩

/-- Claim C3, amended: every `receive_garbage` emission of the v1 handler
and of the v2 FFA branch carries a positive number of lines, whatever the
client supplied; the v2 duel relay instead forwards the client-supplied
amount unchanged, so its emission is non-negative only when the client
payload is. -/
theorem receive_garbage_amounts :
    (∀ (room : Option Room) (sid : String) (amt : Int) (t : String) (d : Int),
      Emit.receive_garbage t d ∈ send_garbage room sid amt → 0 < d)
    ∧ (∀ (lobby : FfaLobby) (sid : String) (amt : Int) (t : String) (d : Int),
      Emit.receive_garbage t d ∈ ffaGarbage lobby sid amt → 0 < d)
    ∧ (∀ (dl : Duel) (sid : String) (amt : Int) (e : Emit),
      e ∈ duelGarbage (some dl) sid amt →
      e = Emit.receive_garbage
        (if dl.p1Id == sid then dl.p2Id else dl.p1Id) amt) := by
  refine ⟨?_, ?_, ?_⟩
  · intro room sid amt t d h
    match room with
    | none => simp [send_garbage] at h
    | some r =>
      simp only [send_garbage] at h
      split at h
      · simp at h
      · split at h
        · split at h
          · split at h
            · simp at h
              rcases h with ⟨a, -, -, hd⟩
              omega
            · simp at h
              rcases h with ⟨hpos, a, -, -, hd⟩
              exact hd ▸ hpos
          · simp at h
            rcases h with ⟨hpos, a, -, -, hd⟩
            exact hd ▸ hpos
        · simp at h
  · intro lobby sid amt t d h
    simp only [ffaGarbage] at h
    split at h
    · split at h
      · simp at h
      · split at h
        · split at h
          · split at h
            · simp at h
              rcases h with ⟨a, -, -, hd⟩
              omega
            · simp at h
              rcases h with ⟨hpos, a, -, -, hd⟩
              exact hd ▸ hpos
          · simp at h
        · simp at h
    · simp at h
  · intro dl sid amt e h
    simp only [duelGarbage] at h
    split at h
    · simpa using h
    · simp at h

/-- Claim C3, witness: concrete emissions obtained through the amended
theorem; the FFA paths give positive amounts, the duel relay echoes the
client amount. -/
theorem receive_garbage_amounts_witness :
    ((0 : Int) < 2)
    ∧ ((0 : Int) < 4)
    ∧ Emit.receive_garbage "p2" 7 =
        Emit.receive_garbage
          (if duelPQ.p1Id == "p1" then duelPQ.p2Id else duelPQ.p1Id) 7 := by
  refine ⟨?_, ?_, ?_⟩
  · exact receive_garbage_amounts.1 (some roomFfa3) "p1" 4 "p2" 2 (by decide)
  · exact receive_garbage_amounts.2.1 lobbyPlay3 "p1" 8 "p3" 4 (by decide)
  · exact receive_garbage_amounts.2.2 duelPQ "p1" 7
      (Emit.receive_garbage "p2" 7) (by decide)

/-! ## Claim C7 -/

/-- Claim C7: every `receive_garbage` delivery of a free-for-all attack
is addressed to a player who is alive and different from the attacker,
and such deliveries happen only while the match state is playing (v1
handler and v2 FFA branch). -/
theorem ffa_garbage_only_alive_targets :
    (∀ (r : Room) (sid : String) (amt : Int) (t : String) (d : Int),
      r.mode = Mode.ffa →
      Emit.receive_garbage t d ∈ send_garbage (some r) sid amt →
      r.state = RState.playing ∧
        ∃ p, p ∈ r.players ∧ p.id = t ∧ p.alive = true ∧ p.id ≠ sid)
    ∧ (∀ (lobby : FfaLobby) (sid : String) (amt : Int) (t : String) (d : Int),
      Emit.receive_garbage t d ∈ ffaGarbage lobby sid amt →
      lobby.state = RState.playing ∧
        ∃ p, p ∈ lobby.players ∧ p.id = t ∧ p.alive = true ∧ p.id ≠ sid) := by
  constructor
  · intro r sid amt t d _ h
    have key : ∀ dm : Int,
        Emit.receive_garbage t d ∈
          (r.players.filter (fun p => p.alive && p.id != sid)).map
            (fun q => Emit.receive_garbage q.id dm) →
        ∃ p, p ∈ r.players ∧ p.id = t ∧ p.alive = true ∧ p.id ≠ sid := by
      intro dm hm
      rcases List.mem_map.mp hm with ⟨q, hq, he⟩
      rcases List.mem_filter.mp hq with ⟨hqm, hqf⟩
      simp only [Bool.and_eq_true, bne_iff_ne] at hqf
      cases he
      exact ⟨q, hqm, rfl, hqf.1, hqf.2⟩
    simp only [send_garbage] at h
    split at h
    · exact absurd h (List.not_mem_nil _)
    · next hstate =>
      refine ⟨by simpa using hstate, ?_⟩
      repeat' split at h
      all_goals first
        | exact absurd h (List.not_mem_nil _)
        | exact key _ h
  · intro lobby sid amt t d h
    have key : ∀ dm : Int,
        Emit.receive_garbage t d ∈
          (lobby.players.filter (fun p => p.alive && p.id != sid)).map
            (fun q => Emit.receive_garbage q.id dm) →
        ∃ p, p ∈ lobby.players ∧ p.id = t ∧ p.alive = true ∧ p.id ≠ sid := by
      intro dm hm
      rcases List.mem_map.mp hm with ⟨q, hq, he⟩
      rcases List.mem_filter.mp hq with ⟨hqm, hqf⟩
      simp only [Bool.and_eq_true, bne_iff_ne] at hqf
      cases he
      exact ⟨q, hqm, rfl, hqf.1, hqf.2⟩
    simp only [ffaGarbage] at h
    split at h
    · next hstate =>
      refine ⟨hstate, ?_⟩
      repeat' split at h
      all_goals first
        | exact absurd h (List.not_mem_nil _)
        | exact key _ h
    · exact absurd h (List.not_mem_nil _)

/-- Claim C7, witness: a concrete FFA delivery, with its target shown
alive and distinct from the attacker while the room is playing. -/
theorem ffa_garbage_only_alive_targets_witness :
    roomFfa3.state = RState.playing ∧
      ∃ p, p ∈ roomFfa3.players ∧ p.id = "p2" ∧ p.alive = true ∧
        p.id ≠ "p1" := by
  exact ffa_garbage_only_alive_targets.1 roomFfa3 "p1" 4 "p2" 2 rfl (by decide)

/-! ## Helper lemmas for checkWin, player_died and disconnect -/

/-- `checkWin` never changes the member list of the room. -/
theorem checkWin_players_eq (r : Room) : (checkWin r).1.players = r.players := by
  simp only [checkWin]
  split
  · split <;> rfl
  · rfl

/-- `checkWin` either finishes the room or changes nothing and emits
nothing. -/
theorem checkWin_finished_or_eq (r : Room) :
    (checkWin r).1.state = RState.finished ∨ checkWin r = (r, []) := by
  simp only [checkWin]
  split
  · split
    · exact Or.inl rfl
    · exact Or.inl rfl
  · exact Or.inr rfl

/-- `checkWin` emits no elimination events. -/
theorem checkWin_no_elim (r : Room) : countElim (checkWin r).2 = 0 := by
  simp only [checkWin]
  split
  · split <;> rfl
  · rfl

/-- `player_died` is a no-op outside the playing state. -/
theorem player_died_not_playing (room : Room) (sid : String)
    (h : room.state ≠ RState.playing) : player_died room sid = (room, []) := by
  simp [player_died, h]

/-- `player_died` is a no-op for a sender who is not a room member. -/
theorem player_died_no_member (room : Room) (sid : String)
    (h : room.players.find? (fun x => x.id == sid) = none) :
    player_died room sid = (room, []) := by
  unfold player_died
  split
  · rfl
  · rw [h]

/-- `player_died` is a no-op for a member who is already dead. -/
theorem player_died_dead (room : Room) (sid : String) (p : Player)
    (hp : room.players.find? (fun x => x.id == sid) = some p)
    (ha : p.alive = false) : player_died room sid = (room, []) := by
  unfold player_died
  split
  · rfl
  · rw [hp]
    simp [ha]

/-- Marking the found member dead is visible to a repeated lookup. -/
theorem find_after_kill (l : List Player) (sid : String) (p : Player)
    (h : l.find? (fun x => x.id == sid) = some p) :
    (killPlayer l sid).find? (fun x => x.id == sid) =
      some { p with alive := false } := by
  induction l with
  | nil => simp at h
  | cons a l ih =>
    by_cases ha : (a.id == sid) = true
    · simp only [List.find?_cons, ha] at h
      injection h with h
      subst h
      rw [killPlayer, List.map_cons, if_pos ha]
      exact List.find?_cons_of_pos _ ha
    · have ha0 : (a.id == sid) = false := by
        simpa using ha
      simp only [List.find?_cons, ha0] at h
      simp only [killPlayer, List.map_cons, ha0, Bool.false_eq_true, if_false,
        List.find?_cons] at ih ⊢
      exact ih h

/-- Bumping a score is an increment at the bumped key. -/
theorem lookup_bumpScore_self (scores : List (String × Int)) (name : String) :
    (bumpScore scores name).lookup name =
      (scores.lookup name).map (fun v => v + 1) := by
  induction scores with
  | nil => rfl
  | cons kv l ih =>
    obtain ⟨k, v⟩ := kv
    simp only [bumpScore] at ih ⊢
    by_cases h : k = name
    · subst h
      simp [List.lookup_cons]
    · have h1 : (k == name) = false := beq_eq_false_iff_ne.mpr h
      have h2 : (name == k) = false := beq_eq_false_iff_ne.mpr (Ne.symm h)
      simp only [List.map_cons, h1, Bool.false_eq_true, if_false,
        List.lookup_cons, h2]
      exact ih

/-- Bumping a score leaves every other key unchanged. -/
theorem lookup_bumpScore_ne (scores : List (String × Int)) (name other : String)
    (h : other ≠ name) :
    (bumpScore scores name).lookup other = scores.lookup other := by
  induction scores with
  | nil => rfl
  | cons kv l ih =>
    obtain ⟨k, v⟩ := kv
    simp only [bumpScore] at ih ⊢
    by_cases hk : k = name
    · subst hk
      have h2 : (other == k) = false := beq_eq_false_iff_ne.mpr h
      rw [List.map_cons, if_pos (beq_self_eq_true k)]
      rw [List.lookup_cons, List.lookup_cons]
      simp only [h2]
      exact ih
    · have h1 : (k == name) = false := beq_eq_false_iff_ne.mpr hk
      have h1' : ¬((((k, v) : String × Int).1 == name) = true) := by
        simp [h1]
      rw [List.map_cons, if_neg h1']
      rw [List.lookup_cons, List.lookup_cons]
      by_cases ho : (other == k) = true
      · simp only [ho]
      · have ho0 : (other == k) = false := by
          simpa using ho
        simp only [ho0]
        exact ih

/-! ## Claim C5 -/

/-- Claim C5: once a member is dead, or the room is not playing, a
further `player_died` event for that member changes no state and emits
nothing; consequently `player_died` is idempotent, so a player is
eliminated and announced at most once per round. -/
theorem player_died_at_most_once (room : Room) (sid : String) :
    (room.state ≠ RState.playing → player_died room sid = (room, []))
    ∧ (∀ p, room.players.find? (fun x => x.id == sid) = some p →
        p.alive = false → player_died room sid = (room, []))
    ∧ player_died (player_died room sid).1 sid =
        ((player_died room sid).1, []) := by
  refine ⟨fun h => player_died_not_playing room sid h,
    fun p hp ha => player_died_dead room sid p hp ha, ?_⟩
  by_cases hs : room.state = RState.playing
  · cases hf : room.players.find? (fun x => x.id == sid) with
    | none =>
      rw [player_died_no_member room sid hf]
      exact player_died_no_member room sid hf
    | some p =>
      by_cases ha : p.alive = true
      · have h1 : player_died room sid =
            ((checkWin { room with players := killPlayer room.players sid }).1,
             Emit.elimination room.id p.username ::
               (checkWin { room with players := killPlayer room.players sid }).2) := by
          unfold player_died
          rw [if_neg (by simp [hs]), hf]
          dsimp only
          rw [if_pos ha]
        rw [h1]
        rcases checkWin_finished_or_eq
            { room with players := killPlayer room.players sid } with hcw | hcw
        · exact player_died_not_playing _ _
            (by rw [hcw]; exact fun hcon => nomatch hcon)
        · rw [hcw]
          exact player_died_dead _ _ { p with alive := false }
            (find_after_kill _ _ _ hf) rfl
      · have ha0 : p.alive = false := by simpa using ha
        rw [player_died_dead room sid p hf ha0]
        exact player_died_dead room sid p hf ha0
  · rw [player_died_not_playing room sid hs]
    exact player_died_not_playing room sid hs

/-- Claim C5, witness: a dead member and a not-yet-started room, where a
`player_died` report is a no-op. -/
theorem player_died_at_most_once_witness :
    player_died roomWaiting "p1" = (roomWaiting, [])
    ∧ player_died roomWin1 "p2" = (roomWin1, []) := by
  constructor
  · exact (player_died_at_most_once roomWaiting "p1").1 (by decide)
  · exact (player_died_at_most_once roomWin1 "p2").2.1 ⟨"p2", "Bob", false⟩
      (by decide) rfl

/-! ## Claim C9 -/

/-- Claim C9: with exactly one survivor `checkWin` finishes the room,
increments exactly the score of that survivor and announces the winner; with
none it finishes the room, announces "No One" and changes no score; with
two or more survivors it changes nothing and emits nothing. -/
theorem checkWin_outcomes (room : Room) :
    (∀ s : Player, room.players.filter (fun p => p.alive) = [s] →
      (checkWin room).1.state = RState.finished
      ∧ (checkWin room).1.scores.lookup s.username
          = (room.scores.lookup s.username).map (fun v => v + 1)
      ∧ (∀ name, name ≠ s.username →
          (checkWin room).1.scores.lookup name = room.scores.lookup name)
      ∧ Emit.round_over room.id s.username ∈ (checkWin room).2)
    ∧ (room.players.filter (fun p => p.alive) = [] →
      (checkWin room).1.state = RState.finished
      ∧ (checkWin room).1.scores = room.scores
      ∧ Emit.round_over room.id "No One" ∈ (checkWin room).2)
    ∧ (2 ≤ (room.players.filter (fun p => p.alive)).length →
      checkWin room = (room, [])) := by
  refine ⟨?_, ?_, ?_⟩
  · intro s hs
    have hck : checkWin room =
        ({ room with
            state := RState.finished
            scores := bumpScore room.scores s.username },
         [Emit.round_over room.id s.username, Emit.lobby_update room.id]) := by
      simp only [checkWin, hs]
      rfl
    rw [hck]
    exact ⟨rfl, lookup_bumpScore_self room.scores s.username,
      fun name hn => lookup_bumpScore_ne room.scores s.username name hn,
      by simp⟩
  · intro hs
    have hck : checkWin room =
        ({ room with state := RState.finished },
         [Emit.round_over room.id "No One", Emit.lobby_update room.id]) := by
      simp only [checkWin, hs]
      rfl
    rw [hck]
    exact ⟨rfl, rfl, by simp⟩
  · intro h2
    have hc : ¬((room.players.filter (fun p => p.alive)).length ≤ 1) := by
      omega
    simp only [checkWin]
    rw [if_neg hc]

/-- Claim C9, witness: concrete rooms with one, zero and two survivors. -/
theorem checkWin_outcomes_witness :
    (checkWin roomWin1).1.state = RState.finished
    ∧ (checkWin roomWin1).1.scores.lookup "Alice" = some 1
    ∧ (checkWin roomWin1).1.scores.lookup "Bob" = some 0
    ∧ (checkWin roomWin0).1.state = RState.finished
    ∧ (checkWin roomWin0).1.scores = roomWin0.scores
    ∧ Emit.round_over "r1" "No One" ∈ (checkWin roomWin0).2
    ∧ checkWin roomFfa3 = (roomFfa3, []) := by
  have h1 := (checkWin_outcomes roomWin1).1 ⟨"p1", "Alice", true⟩ (by decide)
  have h0 := (checkWin_outcomes roomWin0).2.1 (by decide)
  have h3 := (checkWin_outcomes roomFfa3).2.2 (by decide)
  exact ⟨h1.1, h1.2.1.trans (by decide),
    (h1.2.2.1 "Bob" (by decide)).trans (by decide),
    h0.1, h0.2.1, h0.2.2, h3⟩

/-! ## Claim C6 -/

/-- The room `disconnectStep` returns carries exactly the shrunk player
list. -/
theorem disconnectStep_players (room : Room) (sid : String) (p : Player) :
    (disconnectStep room sid p).1.players =
      room.players.filter (fun x => x.id != sid) := by
  simp only [disconnectStep]
  split
  · rw [checkWin_players_eq]
  · rfl

/-- Unfolding of `disconnect` when the shrunk room keeps some players. -/
theorem disconnect_nonempty (rooms : List Room) (sid : String) (room : Room)
    (p : Player) (hr : getRoom rooms sid = some room)
    (hp : room.players.find? (fun x => x.id == sid) = some p)
    (he : (room.players.filter (fun x => x.id != sid)).isEmpty = false) :
    disconnect rooms sid =
      (rooms.map (fun r => if r.id == room.id then
          (disconnectStep room sid p).1 else r),
       (disconnectStep room sid p).2 ++ [Emit.lobby_update room.id]) := by
  unfold disconnect
  rw [hr]
  dsimp only
  rw [hp]
  dsimp only
  rw [if_neg (by simp [he])]

/-- Unfolding of `disconnect` when the shrunk room has no players left. -/
theorem disconnect_empty (rooms : List Room) (sid : String) (room : Room)
    (p : Player) (hr : getRoom rooms sid = some room)
    (hp : room.players.find? (fun x => x.id == sid) = some p)
    (he : (room.players.filter (fun x => x.id != sid)).isEmpty = true) :
    disconnect rooms sid = (rooms.filter (fun r => r.id != room.id), []) := by
  unfold disconnect
  rw [hr]
  dsimp only
  rw [hp]
  dsimp only
  rw [if_pos he]

/-- Claim C6: a disconnect removes the departing player from its room at
once; an emptied room is deleted from the registry; otherwise, when the
match was playing and the player alive, exactly one elimination is
broadcast and the win condition is checked on the shrunk room. -/
theorem disconnect_spec (rooms : List Room) (sid : String) (room : Room)
    (p : Player) (hr : getRoom rooms sid = some room)
    (hp : room.players.find? (fun x => x.id == sid) = some p) :
    ((room.players.filter (fun x => x.id != sid)).isEmpty = true →
      disconnect rooms sid = (rooms.filter (fun r => r.id != room.id), []))
    ∧ ((room.players.filter (fun x => x.id != sid)).isEmpty = false →
        ∀ r, r ∈ (disconnect rooms sid).1 → r.id = room.id →
          ∀ q, q ∈ r.players → q.id ≠ sid)
    ∧ ((room.players.filter (fun x => x.id != sid)).isEmpty = false →
        room.state = RState.playing → p.alive = true →
        disconnect rooms sid =
          (rooms.map (fun r => if r.id == room.id then
              (checkWin { room with
                players := room.players.filter (fun x => x.id != sid) }).1
            else r),
           Emit.elimination room.id p.username ::
             ((checkWin { room with
                 players := room.players.filter (fun x => x.id != sid) }).2
               ++ [Emit.lobby_update room.id]))
        ∧ countElim (disconnect rooms sid).2 = 1) := by
  refine ⟨disconnect_empty rooms sid room p hr hp, ?_, ?_⟩
  · intro he r hrm hid q hq
    rw [disconnect_nonempty rooms sid room p hr hp he] at hrm
    rcases List.mem_map.mp hrm with ⟨r0, hr0, hif⟩
    by_cases h0 : (r0.id == room.id) = true
    · rw [if_pos h0] at hif
      subst hif
      rw [disconnectStep_players room sid p] at hq
      rcases List.mem_filter.mp hq with ⟨-, hqf⟩
      simpa using hqf
    · rw [if_neg h0] at hif
      subst hif
      exact absurd (beq_iff_eq.mpr hid) h0
  · intro he hplay halive
    have hstep : disconnectStep room sid p =
        ((checkWin { room with
            players := room.players.filter (fun x => x.id != sid) }).1,
         Emit.elimination room.id p.username ::
           (checkWin { room with
              players := room.players.filter (fun x => x.id != sid) }).2) := by
      unfold disconnectStep
      rw [if_pos ⟨hplay, halive⟩]
    have hd := disconnect_nonempty rooms sid room p hr hp he
    rw [hstep] at hd
    refine ⟨hd, ?_⟩
    rw [hd]
    have hno := checkWin_no_elim { room with
      players := room.players.filter (fun x => x.id != sid) }
    simp only [countElim, List.countP_cons, List.countP_append] at hno ⊢
    simp [hno]

/-- Claim C6, witness: a solo room is deleted on disconnect, and a
disconnect of a live player from a playing room broadcasts exactly one
elimination. -/
theorem disconnect_spec_witness :
    disconnect [roomSolo] "p1" = ([], [])
    ∧ countElim (disconnect [roomFfa3] "p3").2 = 1 := by
  constructor
  · exact ((disconnect_spec [roomSolo] "p1" roomSolo ⟨"p1", "Alice", true⟩
      (by decide) (by decide)).1 (by decide)).trans (by decide)
  · exact ((disconnect_spec [roomFfa3] "p3" roomFfa3 ⟨"p3", "Eve", true⟩
      (by decide) (by decide)).2.2 (by decide) rfl rfl).2

/-! ## Claim C10 -/

/-- Claim C10: after a round-loss report on an active duel, the duel ends
exactly when the round score of one player is at least 6 and leads by at least
2 (on the post-report scores); otherwise the duel stays active, its round
counter has increased by 1 and the freshly drawn seed is stored and sent
out for the next round. -/
theorem duel_report_loss_spec (d : Duel) (rid : String) (seed : Nat)
    (hd : d.active = true) :
    ((duel_report_loss d rid seed).1.active = false ↔
      ((6 ≤ (duel_report_loss d rid seed).1.s1
          ∧ (duel_report_loss d rid seed).1.s2 + 2 ≤
              (duel_report_loss d rid seed).1.s1)
        ∨ (6 ≤ (duel_report_loss d rid seed).1.s2
          ∧ (duel_report_loss d rid seed).1.s1 + 2 ≤
              (duel_report_loss d rid seed).1.s2)))
    ∧ (duel_report_loss d rid seed).1.round = d.round + 1
    ∧ ((duel_report_loss d rid seed).1.active = true →
        (duel_report_loss d rid seed).1.seed = seed
        ∧ Emit.duel_round_result (d.round + 1) seed ∈
            (duel_report_loss d rid seed).2) := by
  simp only [duel_report_loss]
  rw [if_neg (by simp [hd])]
  by_cases hw : (d.p1Id == rid) = true
  · rw [if_pos hw, if_pos hw]
    by_cases hdif : d.s2 + 1 ≤ d.s1
    · rw [if_pos hdif]
      by_cases hc : (6 ≤ d.s1 ∨ 6 ≤ d.s2 + 1) ∧ 2 ≤ d.s1 - (d.s2 + 1)
      · rw [if_pos hc]
        refine ⟨?_, rfl, fun hcon => nomatch hcon⟩
        dsimp only
        exact ⟨fun _ => (by omega), fun _ => rfl⟩
      · rw [if_neg hc]
        refine ⟨?_, rfl, fun _ => ⟨rfl, List.mem_singleton_self _⟩⟩
        dsimp only
        refine ⟨fun hcon => absurd hcon (by simp [hd]), fun hrhs => ?_⟩
        exfalso
        omega
    · rw [if_neg hdif]
      by_cases hc : (6 ≤ d.s1 ∨ 6 ≤ d.s2 + 1) ∧ 2 ≤ d.s2 + 1 - d.s1
      · rw [if_pos hc]
        refine ⟨?_, rfl, fun hcon => nomatch hcon⟩
        dsimp only
        exact ⟨fun _ => (by omega), fun _ => rfl⟩
      · rw [if_neg hc]
        refine ⟨?_, rfl, fun _ => ⟨rfl, List.mem_singleton_self _⟩⟩
        dsimp only
        refine ⟨fun hcon => absurd hcon (by simp [hd]), fun hrhs => ?_⟩
        exfalso
        omega
  · rw [if_neg hw, if_neg hw]
    by_cases hdif : d.s2 ≤ d.s1 + 1
    · rw [if_pos hdif]
      by_cases hc : (6 ≤ d.s1 + 1 ∨ 6 ≤ d.s2) ∧ 2 ≤ d.s1 + 1 - d.s2
      · rw [if_pos hc]
        refine ⟨?_, rfl, fun hcon => nomatch hcon⟩
        dsimp only
        exact ⟨fun _ => (by omega), fun _ => rfl⟩
      · rw [if_neg hc]
        refine ⟨?_, rfl, fun _ => ⟨rfl, List.mem_singleton_self _⟩⟩
        dsimp only
        refine ⟨fun hcon => absurd hcon (by simp [hd]), fun hrhs => ?_⟩
        exfalso
        omega
    · rw [if_neg hdif]
      by_cases hc : (6 ≤ d.s1 + 1 ∨ 6 ≤ d.s2) ∧ 2 ≤ d.s2 - (d.s1 + 1)
      · rw [if_pos hc]
        refine ⟨?_, rfl, fun hcon => nomatch hcon⟩
        dsimp only
        exact ⟨fun _ => (by omega), fun _ => rfl⟩
      · rw [if_neg hc]
        refine ⟨?_, rfl, fun _ => ⟨rfl, List.mem_singleton_self _⟩⟩
        dsimp only
        refine ⟨fun hcon => absurd hcon (by simp [hd]), fun hrhs => ?_⟩
        exfalso
        omega

/-- Claim C10, witness: the 5-0 duel ends when the loser drops a sixth
round; the 0-0 duel continues into round 2 with the fresh seed. -/
theorem duel_report_loss_spec_witness :
    (duel_report_loss duelFive "p2" 7).1.active = false
    ∧ (duel_report_loss duelPQ "p1" 7).1.round = 2
    ∧ (duel_report_loss duelPQ "p1" 7).1.seed = 7 := by
  refine ⟨?_, ?_, ?_⟩
  · exact (duel_report_loss_spec duelFive "p2" 7 rfl).1.mpr (by decide)
  · exact (duel_report_loss_spec duelPQ "p1" 7 rfl).2.1
  · exact ((duel_report_loss_spec duelPQ "p1" 7 rfl).2.2 (by decide)).1

/-! ## Claim C8 -/

/-- Writing `a` at position `n` exchanges the old entry for `a` in the
underlying multiset. -/
theorem cons_coe_set (l : List Nat) (n : Nat) (a : Nat) (h : n < l.length) :
    (l.get ⟨n, h⟩) ::ₘ ((l.set n a : List Nat) : Multiset Nat) =
      a ::ₘ (l : Multiset Nat) := by
  induction l generalizing n with
  | nil => exact absurd h (by simp)
  | cons x xs ih =>
    cases n with
    | zero =>
      simp only [List.get, List.set, ← Multiset.cons_coe]
      exact Multiset.cons_swap x a (xs : Multiset Nat)
    | succ m =>
      have hm : m < xs.length := by
        simpa using h
      simp only [List.get, List.set, ← Multiset.cons_coe]
      rw [Multiset.cons_swap (xs.get ⟨m, hm⟩) x, ih m hm]
      exact Multiset.cons_swap x a (xs : Multiset Nat)

/-- A swap leaves the list a permutation of itself, also when an index is
out of range. -/
theorem listSwap_perm (l : List Nat) (i j : Nat) : (listSwap l i j).Perm l := by
  unfold listSwap
  split
  · next hb =>
    obtain ⟨hi, hj⟩ := hb
    rw [← Multiset.coe_eq_coe]
    have hj' : j < (l.set i (l.get ⟨j, hj⟩)).length := by
      simpa using hj
    have h1 := cons_coe_set (l.set i (l.get ⟨j, hj⟩)) j (l.get ⟨i, hi⟩) hj'
    have h2 := cons_coe_set l i (l.get ⟨j, hj⟩) hi
    have hbj : (l.set i (l.get ⟨j, hj⟩)).get ⟨j, hj'⟩ = l.get ⟨j, hj⟩ := by
      by_cases hij : i = j
      · subst hij
        simp
      · simp only [List.get_eq_getElem]
        exact List.getElem_set_of_ne hij (l.get ⟨j, hj⟩) hj'
    rw [hbj] at h1
    exact (Multiset.cons_inj_right _).mp (h1.trans h2)
  · exact List.Perm.refl l

/-- The Fisher-Yates pass returns a permutation of its input for every
choice oracle. -/
theorem fisherYates_perm (i : Nat) (choice : Nat → Nat) (l : List Nat) :
    (fisherYates l i choice).Perm l := by
  induction i generalizing l with
  | zero => exact List.Perm.refl l
  | succ n ih =>
    exact (ih _).trans (listSwap_perm l (n + 1) (choice (n + 1) % (n + 2)))

/-- Unfolding one pull out of a run of pulls. -/
theorem pulls_succ (n : Nat) (bag : List Nat) (choice : Nat → Nat) :
    pulls (n + 1) bag choice =
      (pull bag choice).1 :: pulls n (pull bag choice).2 choice := rfl

/-- Pulling exactly as many times as the bag holds returns the bag. -/
theorem pulls_length_self (l : List Nat) (choice : Nat → Nat) :
    pulls l.length l choice = l := by
  induction l with
  | nil => rfl
  | cons x xs ih =>
    rw [List.length_cons, pulls_succ]
    show x :: pulls xs.length xs choice = x :: xs
    rw [ih]

/-- Claim C8: 7 consecutive pulls from an empty bag return each of the 7
shape identities exactly once (as a multiset), for every random oracle
driving the Fisher-Yates refill shuffle. -/
theorem bag_fairness (choice : Nat → Nat) :
    (pulls 7 [] choice).Perm [0, 1, 2, 3, 4, 5, 6] := by
  have hp : (refillBag choice).Perm [0, 1, 2, 3, 4, 5, 6] :=
    fisherYates_perm 6 choice _
  have hl : (refillBag choice).length = 7 := by
    rw [hp.length_eq]
    rfl
  cases hr : refillBag choice with
  | nil =>
    rw [hr] at hl
    simp at hl
  | cons x rest =>
    have hrl : rest.length = 6 := by
      rw [hr] at hl
      simpa using hl
    have hpull : pull [] choice = (x, rest) := by
      unfold pull
      rw [hr]
    have hfull : pulls 6 rest choice = rest := by
      rw [show (6 : Nat) = rest.length from hrl.symm]
      exact pulls_length_self rest choice
    have hstep : pulls 7 [] choice = x :: pulls 6 rest choice := by
      rw [show (7 : Nat) = 6 + 1 from rfl, pulls_succ, hpull]
    rw [hstep, hfull, ← hr]
    exact hp
